import Mathlib

/-!
Shallow embedding of the stock-tracker core (`app/models.py` and
`app/portfolio_service.py`). Python `Decimal` quantities are modelled as
exact rationals (`ℚ`), matching the spec's "exact decimal arithmetic
throughout"; Python `datetime` timestamps are opaque `Nat` values;
`Optional[int]` identities are `Option Nat`; fallible constructors return
`Except String`.
-/

namespace StockTracker

/-- Embeds `app/models.py` `User`: persistent row of the `users` table. -/
structure User where
  id : Option Nat
  name : String
  email : String
  is_active : Bool
  created_at : Nat
deriving Repr, DecidableEq

/-- Embeds `app/models.py` `StockHolding`: persistent row of the `stock_holdings` table. -/
structure StockHolding where
  id : Option Nat
  ticker : String
  shares : ℚ
  purchase_price : ℚ
  user_id : Nat
  created_at : Nat
  updated_at : Nat
deriving Repr, DecidableEq

/-- Embeds `StockHolding.total_purchase_value`: `self.shares * self.purchase_price`. -/
def StockHolding.total_purchase_value (h : StockHolding) : ℚ :=
  h.shares * h.purchase_price

/-- Embeds `app/models.py` `HoldingWithCurrentPrice`: transient view of a holding with market data. -/
structure HoldingWithCurrentPrice where
  id : Nat
  ticker : String
  shares : ℚ
  purchase_price : ℚ
  current_price : ℚ
  current_value : ℚ
  gain_loss : ℚ
  gain_loss_percent : ℚ
  created_at : Nat
  updated_at : Nat
deriving Repr, DecidableEq

/-- Embeds `HoldingWithCurrentPrice.from_holding`: raises `ValueError` when the holding has
no assigned id (modelled as `Except.error`), otherwise derives current value,
gain/loss and gain/loss percent (0-guarded division). -/
def HoldingWithCurrentPrice.from_holding (holding : StockHolding) (current_price : ℚ) :
    Except String HoldingWithCurrentPrice :=
  match holding.id with
  | none => .error "StockHolding ID cannot be None"
  | some hid =>
    let current_value := holding.shares * current_price
    let purchase_value := holding.total_purchase_value
    let gain_loss := current_value - purchase_value
    let gain_loss_percent := if purchase_value > 0 then gain_loss / purchase_value * 100 else 0
    .ok { id := hid
          ticker := holding.ticker
          shares := holding.shares
          purchase_price := holding.purchase_price
          current_price := current_price
          current_value := current_value
          gain_loss := gain_loss
          gain_loss_percent := gain_loss_percent
          created_at := holding.created_at
          updated_at := holding.updated_at }

/-- Embeds `app/models.py` `PortfolioSummary`: transient aggregate of a user's priced holdings. -/
structure PortfolioSummary where
  total_current_value : ℚ
  total_purchase_value : ℚ
  total_gain_loss : ℚ
  total_gain_loss_percent : ℚ
  holdings_count : Nat
deriving Repr, DecidableEq

/-- Python `str.upper()` as used on ticker symbols (ASCII): uppercase every
character of the string. -/
def upperStr (s : String) : String := ⟨s.data.map Char.toUpper⟩

/-- The external market-data provider (yfinance): for a ticker symbol, either an
error (network failure, invalid symbol, rate limiting) or the one-day history of
closing prices, time-ordered so the latest close is last. -/
def Provider : Type := String → Except Unit (List ℚ)

/-- Round-half-to-even of a rational to an integer, the rounding mode of Python's
builtin `round`. -/
def roundHalfEven (q : ℚ) : ℤ :=
  let f := ⌊q⌋
  let frac := q - f
  if frac < 1 / 2 then f
  else if 1 / 2 < frac then f + 1
  else if f % 2 = 0 then f else f + 1

/-- Embeds Python `round(x, 2)`: round to 2 decimal places, half to even. -/
def round2 (q : ℚ) : ℚ :=
  (roundHalfEven (q * 100) : ℚ) / 100

/-- Embeds `PortfolioService.get_stock_price`: uppercase the ticker, fetch the one-day
history from the provider; `None` on provider error or empty history, otherwise
the latest closing price rounded to 2 decimal places. -/
def get_stock_price (provider : Provider) (ticker : String) : Option ℚ :=
  match provider (upperStr ticker) with
  | .error _ => none
  | .ok hist =>
    match hist.getLast? with
    | none => none
    | some latest_price => some (round2 latest_price)

/-- Modelled from the spec: the persistence boundary (`app/database.py`, providing
`get_session` over the relational store, is not part of the sources) — a relational
schema with two tables, `users` and `stock_holdings`, where inserting a row assigns
the next identity. Rows are kept in insertion order; `nextUserId` and
`nextHoldingId` model the store's identity assignment. -/
structure Database where
  users : List User
  holdings : List StockHolding
  nextUserId : Nat
  nextHoldingId : Nat
deriving Repr, DecidableEq

/-- Embeds `PortfolioService.get_user_holdings`: `select(StockHolding).where(user_id == user_id)`. -/
def get_user_holdings (db : Database) (user_id : Nat) : List StockHolding :=
  db.holdings.filter (fun h => h.user_id == user_id)

/-- Loop body of `get_holdings_with_prices`: for each holding fetch a quote, skip
the holding when the quote is `None`, otherwise build the view (a `ValueError`
from `from_holding` propagates). -/
def priceViews (provider : Provider) : List StockHolding → Except String (List HoldingWithCurrentPrice)
  | [] => .ok []
  | h :: rest =>
    match get_stock_price provider h.ticker with
    | none => priceViews provider rest
    | some current_price => do
      let v ← HoldingWithCurrentPrice.from_holding h current_price
      let vs ← priceViews provider rest
      .ok (v :: vs)

/-- Embeds `PortfolioService.get_holdings_with_prices`: all of a user's holdings joined
with current prices; holdings whose quote is unavailable are dropped. -/
def get_holdings_with_prices (provider : Provider) (db : Database) (user_id : Nat) :
    Except String (List HoldingWithCurrentPrice) :=
  priceViews provider (get_user_holdings db user_id)

/-- Embeds `PortfolioService.get_portfolio_summary`: sums current and purchase values over
the priced holdings, derives aggregate gain/loss and the 0-guarded percentage. -/
def get_portfolio_summary (provider : Provider) (db : Database) (user_id : Nat) :
    Except String PortfolioSummary := do
  let holdings_with_prices ← get_holdings_with_prices provider db user_id
  let total_current_value := (holdings_with_prices.map (fun h => h.current_value)).sum
  let total_purchase_value := (holdings_with_prices.map (fun h => h.shares * h.purchase_price)).sum
  let total_gain_loss := total_current_value - total_purchase_value
  let total_gain_loss_percent :=
    if total_purchase_value > 0 then total_gain_loss / total_purchase_value * 100 else 0
  .ok { total_current_value := total_current_value
        total_purchase_value := total_purchase_value
        total_gain_loss := total_gain_loss
        total_gain_loss_percent := total_gain_loss_percent
        holdings_count := holdings_with_prices.length }

/-- Embeds `PortfolioService.add_holding`: validate the ticker through `get_stock_price`;
on `None` reject without touching the store, otherwise insert a new `StockHolding`
with uppercased ticker, assigned identity and fresh timestamps (`now`). -/
def add_holding (provider : Provider) (db : Database) (user_id : Nat) (ticker : String)
    (shares purchase_price : ℚ) (now : Nat) : Option StockHolding × Database :=
  match get_stock_price provider ticker with
  | none => (none, db)
  | some _ =>
    let holding : StockHolding :=
      { id := some db.nextHoldingId
        ticker := upperStr ticker
        shares := shares
        purchase_price := purchase_price
        user_id := user_id
        created_at := now
        updated_at := now }
    (some holding,
      { db with holdings := db.holdings ++ [holding], nextHoldingId := db.nextHoldingId + 1 })

/-- Embeds `session.delete` of the row `session.get(StockHolding, holding_id)` found by
primary key: remove the first (under the store's key constraint, only) row with
that id. -/
def removeFirstById (holding_id : Nat) : List StockHolding → List StockHolding
  | [] => []
  | h :: rest => if h.id = some holding_id then rest else h :: removeFirstById holding_id rest

/-- Embeds `PortfolioService.delete_holding`: look the holding up by primary key; `False`
when absent, otherwise delete it and return `True`. -/
def delete_holding (db : Database) (holding_id : Nat) : Bool × Database :=
  match db.holdings.find? (fun h => h.id == some holding_id) with
  | none => (false, db)
  | some _ => (true, { db with holdings := removeFirstById holding_id db.holdings })

/-- Embeds `PortfolioService.get_or_create_default_user`: look up the user with the fixed
email `user@portfolio.com`; when absent, insert one named `Portfolio User` with
that email, assigning identity and a creation timestamp (`now`). -/
def get_or_create_default_user (db : Database) (now : Nat) : User × Database :=
  match db.users.find? (fun u => u.email == "user@portfolio.com") with
  | some u => (u, db)
  | none =>
    let u : User :=
      { id := some db.nextUserId
        name := "Portfolio User"
        email := "user@portfolio.com"
        is_active := true
        created_at := now }
    (u, { db with users := db.users ++ [u], nextUserId := db.nextUserId + 1 })

/-! ## Properties of `HoldingWithCurrentPrice.from_holding` -/

/-- Helper: the exact record `from_holding` builds when the holding's id is assigned. -/
lemma from_holding_some (h : StockHolding) (p : ℚ) (i : Nat) (hid : h.id = some i) :
    HoldingWithCurrentPrice.from_holding h p =
      .ok { id := i
            ticker := h.ticker
            shares := h.shares
            purchase_price := h.purchase_price
            current_price := p
            current_value := h.shares * p
            gain_loss := h.shares * p - h.shares * h.purchase_price
            gain_loss_percent :=
              if h.shares * h.purchase_price > 0 then
                (h.shares * p - h.shares * h.purchase_price) / (h.shares * h.purchase_price) * 100
              else 0
            created_at := h.created_at
            updated_at := h.updated_at } := by
  simp [HoldingWithCurrentPrice.from_holding, hid, StockHolding.total_purchase_value]

/-- C1: for a holding with an assigned id, `shares ≥ 0` and `purchase_price ≥ 0`,
and any price `p`, `from_holding` succeeds (never an error) with
`current_value = shares * p`, `gain_loss = current_value - shares * purchase_price`,
and `gain_loss_percent = gain_loss / purchase_value * 100` when the purchase value
is positive and exactly `0` when it is `0`. -/
theorem from_holding_metrics (h : StockHolding) (p : ℚ) (i : Nat)
    (hid : h.id = some i) (hs : 0 ≤ h.shares) (hp : 0 ≤ h.purchase_price) :
    ∃ v, HoldingWithCurrentPrice.from_holding h p = .ok v ∧
      v.current_value = h.shares * p ∧
      v.gain_loss = v.current_value - h.shares * h.purchase_price ∧
      (0 < h.shares * h.purchase_price →
        v.gain_loss_percent = v.gain_loss / (h.shares * h.purchase_price) * 100) ∧
      (h.shares * h.purchase_price = 0 → v.gain_loss_percent = 0) := by
  refine ⟨_, from_holding_some h p i hid, rfl, rfl, ?_, ?_⟩
  · intro hpos
    simp [hpos]
  · intro hzero
    simp [hzero]

/-- Concrete holding: 10 shares bought at 150.00, id assigned. -/
def exampleHolding : StockHolding :=
  { id := some 1
    ticker := "AAPL"
    shares := 10
    purchase_price := 150
    user_id := 1
    created_at := 0
    updated_at := 0 }

/-- Witness for C1 at shares=10, purchase_price=150.00, current price 160.00:
the view is produced with current_value=1600.00 and gain_loss=100.00. -/
theorem from_holding_metrics_witness :
    ∃ v, HoldingWithCurrentPrice.from_holding exampleHolding 160 = .ok v ∧
      v.current_value = 1600 ∧ v.gain_loss = 100 := by
  obtain ⟨v, hok, hcv, hgl, -, -⟩ :=
    from_holding_metrics exampleHolding 160 1 rfl (by decide) (by decide)
  refine ⟨v, hok, ?_, ?_⟩
  · rw [hcv]; norm_num [exampleHolding]
  · rw [hgl, hcv]; norm_num [exampleHolding]

/-- C5: constructing a view from a holding whose id is unassigned (`None`) fails
with the contract-violation error, not a value. -/
theorem from_holding_unassigned_id_fails (h : StockHolding) (p : ℚ) (hid : h.id = none) :
    HoldingWithCurrentPrice.from_holding h p = .error "StockHolding ID cannot be None" := by
  simp [HoldingWithCurrentPrice.from_holding, hid]

/-- Concrete holding with no assigned id. -/
def unsavedHolding : StockHolding :=
  { id := none
    ticker := "AAPL"
    shares := 10
    purchase_price := 150
    user_id := 1
    created_at := 0
    updated_at := 0 }

/-- Witness for C5: an unsaved holding makes `from_holding` fail. -/
theorem from_holding_unassigned_id_fails_witness :
    HoldingWithCurrentPrice.from_holding unsavedHolding 160 =
      .error "StockHolding ID cannot be None" :=
  from_holding_unassigned_id_fails unsavedHolding 160 rfl

/-- C10: the view carries the holding's stored fields verbatim — id, ticker (as
stored, not re-uppercased), shares, purchase_price, created_at, updated_at — and
`current_price` is exactly the price passed in. -/
theorem from_holding_preserves_fields (h : StockHolding) (p : ℚ) (i : Nat)
    (hid : h.id = some i) :
    ∃ v, HoldingWithCurrentPrice.from_holding h p = .ok v ∧
      v.id = i ∧ v.ticker = h.ticker ∧ v.shares = h.shares ∧
      v.purchase_price = h.purchase_price ∧ v.created_at = h.created_at ∧
      v.updated_at = h.updated_at ∧ v.current_price = p :=
  ⟨_, from_holding_some h p i hid, rfl, rfl, rfl, rfl, rfl, rfl, rfl⟩

/-- Concrete holding stored with a lowercase ticker. -/
def lowercaseHolding : StockHolding :=
  { id := some 2
    ticker := "aapl"
    shares := 3
    purchase_price := 50
    user_id := 1
    created_at := 7
    updated_at := 9 }

/-- Witness for C10: the view of a holding stored with ticker "aapl" keeps the
ticker lowercase along with every other stored field. -/
theorem from_holding_preserves_fields_witness :
    ∃ v, HoldingWithCurrentPrice.from_holding lowercaseHolding 160 = .ok v ∧
      v.id = 2 ∧ v.ticker = "aapl" ∧ v.shares = lowercaseHolding.shares ∧
      v.purchase_price = lowercaseHolding.purchase_price ∧
      v.created_at = lowercaseHolding.created_at ∧
      v.updated_at = lowercaseHolding.updated_at ∧ v.current_price = 160 :=
  from_holding_preserves_fields lowercaseHolding 160 2 rfl

/-! ## Properties of `add_holding` -/

/-- C3: when the quote lookup cannot resolve the ticker, `add_holding` returns
absent and leaves the store exactly unchanged; when it resolves, a holding is
persisted (appended to the store). -/
theorem add_holding_rejects_unknown_ticker (provider : Provider) (db : Database)
    (user_id : Nat) (ticker : String) (shares purchase_price : ℚ) (now : Nat) :
    (get_stock_price provider ticker = none →
      add_holding provider db user_id ticker shares purchase_price now = (none, db)) ∧
    (∀ p, get_stock_price provider ticker = some p →
      ∃ h, add_holding provider db user_id ticker shares purchase_price now =
        (some h, { db with holdings := db.holdings ++ [h],
                           nextHoldingId := db.nextHoldingId + 1 })) := by
  constructor
  · intro hq
    simp [add_holding, hq]
  · intro p hq
    exact ⟨{ id := some db.nextHoldingId
             ticker := upperStr ticker
             shares := shares
             purchase_price := purchase_price
             user_id := user_id
             created_at := now
             updated_at := now }, by simp [add_holding, hq]⟩

/-- A provider that errors on every ticker (network down). -/
def downProvider : Provider := fun _ => .error ()

/-- A provider that prices every ticker: a one-day history closing at 100. -/
def flatProvider : Provider := fun _ => .ok [100]

/-- The empty store. -/
def emptyDb : Database := { users := [], holdings := [], nextUserId := 1, nextHoldingId := 1 }

/-- Witness for C3: with the provider down the add is rejected and the store is
unchanged; with a quote available a holding is appended. -/
theorem add_holding_rejects_unknown_ticker_witness :
    add_holding downProvider emptyDb 1 "ZZZZ" 10 150 0 = (none, emptyDb) ∧
    ∃ h, add_holding flatProvider emptyDb 1 "aapl" 10 150 0 =
      (some h, { emptyDb with holdings := emptyDb.holdings ++ [h],
                              nextHoldingId := emptyDb.nextHoldingId + 1 }) :=
  ⟨(add_holding_rejects_unknown_ticker downProvider emptyDb 1 "ZZZZ" 10 150 0).1 rfl,
   (add_holding_rejects_unknown_ticker flatProvider emptyDb 1 "aapl" 10 150 0).2
     (round2 100) rfl⟩

/-- C8: when the quote lookup resolves the ticker, `add_holding` persists exactly
one new holding — appended to the store with the uppercased input ticker, the
given shares, purchase price and user id, an assigned identity and fresh
timestamps — and returns that holding. -/
theorem add_holding_persists_fields (provider : Provider) (db : Database)
    (user_id : Nat) (ticker : String) (shares purchase_price : ℚ) (now : Nat) (p : ℚ)
    (hq : get_stock_price provider ticker = some p) :
    ∃ h, add_holding provider db user_id ticker shares purchase_price now =
        (some h, { db with holdings := db.holdings ++ [h],
                           nextHoldingId := db.nextHoldingId + 1 }) ∧
      h.ticker = upperStr ticker ∧ h.shares = shares ∧
      h.purchase_price = purchase_price ∧ h.user_id = user_id ∧
      h.id = some db.nextHoldingId ∧ h.created_at = now ∧ h.updated_at = now :=
  ⟨{ id := some db.nextHoldingId
     ticker := upperStr ticker
     shares := shares
     purchase_price := purchase_price
     user_id := user_id
     created_at := now
     updated_at := now }, by simp [add_holding, hq], rfl, rfl, rfl, rfl, rfl, rfl, rfl⟩

/-- Witness for C8: adding "msft" with a live quote persists a holding with
ticker "MSFT", the given fields, identity 1 and timestamps 5. -/
theorem add_holding_persists_fields_witness :
    ∃ h, add_holding flatProvider emptyDb 7 "msft" 2 30 5 =
        (some h, { emptyDb with holdings := emptyDb.holdings ++ [h],
                                nextHoldingId := emptyDb.nextHoldingId + 1 }) ∧
      h.ticker = "MSFT" ∧ h.shares = 2 ∧ h.purchase_price = 30 ∧ h.user_id = 7 ∧
      h.id = some 1 ∧ h.created_at = 5 ∧ h.updated_at = 5 :=
  add_holding_persists_fields flatProvider emptyDb 7 "msft" 2 30 5 (round2 100) rfl

/-! ## Properties of `delete_holding` -/

/-- Helper: when the stored (assigned) ids are pairwise distinct, no holding with
the removed id survives `removeFirstById`. -/
lemma removeFirstById_no_id (holding_id : Nat) (l : List StockHolding)
    (hnd : (l.filterMap StockHolding.id).Nodup) :
    ∀ g ∈ removeFirstById holding_id l, g.id ≠ some holding_id := by
  induction l with
  | nil => simp [removeFirstById]
  | cons h rest ih =>
    by_cases hh : h.id = some holding_id
    · rw [List.filterMap_cons_some hh] at hnd
      have hnotin : holding_id ∉ rest.filterMap StockHolding.id := (List.nodup_cons.mp hnd).1
      simp only [removeFirstById, if_pos hh]
      intro g hg hgid
      exact hnotin (List.mem_filterMap.mpr ⟨g, hg, hgid⟩)
    · have hnd' : (rest.filterMap StockHolding.id).Nodup := by
        cases hidh : h.id with
        | none => rwa [List.filterMap_cons_none hidh] at hnd
        | some i =>
          rw [List.filterMap_cons_some hidh] at hnd
          exact hnd.of_cons
      simp only [removeFirstById, if_neg hh]
      intro g hg
      rcases List.mem_cons.mp hg with rfl | hg'
      · exact hh
      · exact ih hnd' g hg'

/-- C4: `delete_holding` returns `false` and leaves the state untouched when no
holding has the id, and returns `true` and removes the holding (no subsequent
listing includes that id, given the store's primary-key uniqueness) when one
exists. -/
theorem delete_holding_found_iff (db : Database) (holding_id : Nat)
    (hnd : (db.holdings.filterMap StockHolding.id).Nodup) :
    ((∀ h ∈ db.holdings, h.id ≠ some holding_id) →
      delete_holding db holding_id = (false, db)) ∧
    ((∃ h ∈ db.holdings, h.id = some holding_id) →
      (delete_holding db holding_id).1 = true ∧
      ∀ h ∈ (delete_holding db holding_id).2.holdings, h.id ≠ some holding_id) := by
  constructor
  · intro habs
    have hfind : db.holdings.find? (fun h => h.id == some holding_id) = none := by
      rw [List.find?_eq_none]
      intro x hx
      simpa using habs x hx
    simp [delete_holding, hfind]
  · rintro ⟨h, hmem, hidh⟩
    have hsome : (db.holdings.find? (fun h => h.id == some holding_id)).isSome := by
      rw [List.find?_isSome]
      exact ⟨h, hmem, by simp [hidh]⟩
    obtain ⟨g, hg⟩ := Option.isSome_iff_exists.mp hsome
    refine ⟨by simp [delete_holding, hg], ?_⟩
    intro x hx
    have hx' : x ∈ removeFirstById holding_id db.holdings := by
      simpa [delete_holding, hg] using hx
    exact removeFirstById_no_id holding_id db.holdings hnd x hx'

/-- A store holding only `exampleHolding` (id 1). -/
def dbOne : Database :=
  { users := [], holdings := [exampleHolding], nextUserId := 1, nextHoldingId := 2 }

/-- Witness for C4: deleting id 99 from a store that lacks it returns `false`
unchanged; deleting id 1 returns `true` and the id is gone. -/
theorem delete_holding_found_iff_witness :
    (delete_holding dbOne 99 = (false, dbOne)) ∧
    ((delete_holding dbOne 1).1 = true ∧
      ∀ h ∈ (delete_holding dbOne 1).2.holdings, h.id ≠ some 1) :=
  ⟨(delete_holding_found_iff dbOne 99 (by decide)).1 (by decide),
   (delete_holding_found_iff dbOne 1 (by decide)).2 ⟨exampleHolding, by decide, rfl⟩⟩

/-- Helper: `removeFirstById` keeps every holding whose id differs. -/
lemma removeFirstById_filter (holding_id : Nat) (l : List StockHolding) :
    (removeFirstById holding_id l).filter (fun h => !(h.id == some holding_id)) =
      l.filter (fun h => !(h.id == some holding_id)) := by
  induction l with
  | nil => rfl
  | cons h rest ih =>
    by_cases hh : h.id = some holding_id
    · simp [removeFirstById, hh]
    · simp [removeFirstById, hh, ih]

/-- C9: `delete_holding` modifies at most the holding with the given id — the
user table and every holding with a different id survive untouched — and an
existing id is removed regardless of which user owns it (the owner is never
consulted). -/
theorem delete_holding_frame (db : Database) (holding_id : Nat) :
    (delete_holding db holding_id).2.users = db.users ∧
    (delete_holding db holding_id).2.holdings.filter (fun h => !(h.id == some holding_id)) =
      db.holdings.filter (fun h => !(h.id == some holding_id)) ∧
    ((∃ h ∈ db.holdings, h.id = some holding_id) →
      (delete_holding db holding_id).1 = true) := by
  cases hf : db.holdings.find? (fun h => h.id == some holding_id) with
  | none =>
    refine ⟨by simp [delete_holding, hf], by simp [delete_holding, hf], ?_⟩
    rintro ⟨h, hmem, hidh⟩
    have := List.find?_eq_none.mp hf h hmem
    simp [hidh] at this
  | some g =>
    exact ⟨by simp [delete_holding, hf],
           by simp [delete_holding, hf, removeFirstById_filter],
           fun _ => by simp [delete_holding, hf]⟩

/-- A holding owned by user 42. -/
def otherUserHolding : StockHolding :=
  { id := some 9
    ticker := "GOOG"
    shares := 1
    purchase_price := 10
    user_id := 42
    created_at := 0
    updated_at := 0 }

/-- A store with holdings of two different users (ids 1 and 9). -/
def dbTwo : Database :=
  { users := []
    holdings := [exampleHolding, otherUserHolding]
    nextUserId := 1
    nextHoldingId := 10 }

/-- Witness for C9: deleting id 9 (owned by user 42) succeeds, keeps the user
table and keeps every holding with a different id. -/
theorem delete_holding_frame_witness :
    (delete_holding dbTwo 9).2.users = dbTwo.users ∧
    (delete_holding dbTwo 9).2.holdings.filter (fun h => !(h.id == some 9)) =
      dbTwo.holdings.filter (fun h => !(h.id == some 9)) ∧
    (delete_holding dbTwo 9).1 = true :=
  ⟨(delete_holding_frame dbTwo 9).1, (delete_holding_frame dbTwo 9).2.1,
   (delete_holding_frame dbTwo 9).2.2 ⟨otherUserHolding, by decide, rfl⟩⟩

/-! ## Properties of `get_or_create_default_user` -/

/-- Helper: `find?` over an append when the first part fails. -/
lemma find?_append_of_none {α : Type} (p : α → Bool) (l₁ l₂ : List α)
    (h : l₁.find? p = none) : (l₁ ++ l₂).find? p = l₂.find? p := by
  rw [List.find?_append, h, Option.none_or]

/-- Helper: when the default email is already present, `get_or_create_default_user`
returns the found user and the unchanged state. -/
lemma get_or_create_found (db : Database) (now : Nat) (u : User)
    (hf : db.users.find? (fun u => u.email == "user@portfolio.com") = some u) :
    get_or_create_default_user db now = (u, db) := by
  simp [get_or_create_default_user, hf]

/-- C6: `get_or_create_default_user` is idempotent from any state — the second
call returns the very same user (hence the same identity and email) and leaves
the state of the first call untouched (no second record is created). -/
theorem get_or_create_default_user_idempotent (db : Database) (now1 now2 : Nat) :
    (get_or_create_default_user (get_or_create_default_user db now1).2 now2).1 =
      (get_or_create_default_user db now1).1 ∧
    (get_or_create_default_user (get_or_create_default_user db now1).2 now2).2 =
      (get_or_create_default_user db now1).2 := by
  cases hf : db.users.find? (fun u => u.email == "user@portfolio.com") with
  | some u =>
    have h1 := get_or_create_found db now1 u hf
    have h2 := get_or_create_found db now2 u hf
    rw [h1, h2]
    exact ⟨rfl, rfl⟩
  | none =>
    have hu : (get_or_create_default_user db now1).1 =
        { id := some db.nextUserId
          name := "Portfolio User"
          email := "user@portfolio.com"
          is_active := true
          created_at := now1 } := by
      simp [get_or_create_default_user, hf]
    have hdb : (get_or_create_default_user db now1).2 =
        { db with users := db.users ++ [(get_or_create_default_user db now1).1],
                  nextUserId := db.nextUserId + 1 } := by
      rw [hu]
      simp [get_or_create_default_user, hf]
    have hfind2 : ((get_or_create_default_user db now1).2.users.find?
        (fun u => u.email == "user@portfolio.com")) =
          some (get_or_create_default_user db now1).1 := by
      rw [hdb]
      show ((db.users ++ [(get_or_create_default_user db now1).1]).find? _) = _
      rw [find?_append_of_none _ _ _ hf]
      simp [List.find?, hu]
    have h2 := get_or_create_found (get_or_create_default_user db now1).2 now2
      (get_or_create_default_user db now1).1 hfind2
    rw [h2]
    exact ⟨rfl, rfl⟩

/-! ## Properties of `get_stock_price` -/

/-- C7: `get_stock_price` consults the provider only at the uppercased ticker;
an empty one-day history and a provider error both map to absent (so the caller
cannot distinguish them); otherwise the result is the latest closing price
rounded to 2 decimal places, an exact multiple of 1/100. -/
theorem get_stock_price_contract (provider : Provider) (ticker : String) :
    (∀ provider2 : Provider, provider2 (upperStr ticker) = provider (upperStr ticker) →
      get_stock_price provider2 ticker = get_stock_price provider ticker) ∧
    (provider (upperStr ticker) = .ok [] → get_stock_price provider ticker = none) ∧
    (∀ e : Unit, provider (upperStr ticker) = .error e →
      get_stock_price provider ticker = none) ∧
    (∀ hist latest, provider (upperStr ticker) = .ok hist → hist.getLast? = some latest →
      get_stock_price provider ticker = some (round2 latest)) ∧
    (∀ v, get_stock_price provider ticker = some v → ∃ n : ℤ, v = (n : ℚ) / 100) := by
  refine ⟨?_, ?_, ?_, ?_, ?_⟩
  · intro provider2 hp2
    simp only [get_stock_price, hp2]
  · intro h
    simp [get_stock_price, h]
  · intro e h
    simp [get_stock_price, h]
  · intro hist latest h hl
    simp [get_stock_price, h, hl]
  · intro v hv
    cases hq : provider (upperStr ticker) with
    | error e => simp [get_stock_price, hq] at hv
    | ok hist =>
      simp only [get_stock_price, hq] at hv
      cases hl : hist.getLast? with
      | none => rw [hl] at hv; simp at hv
      | some latest =>
        rw [hl] at hv
        simp only [Option.some.injEq] at hv
        exact ⟨roundHalfEven (latest * 100), hv.symm⟩

/-- A provider with a one-day history for AAPL only. -/
def histProvider : Provider := fun s => if s = "AAPL" then .ok [150, 160] else .ok []

/-- Witness for C7: the lowercase ticker "aapl" is resolved through its uppercase
form to the latest close rounded to 2 decimals; an unknown ticker (empty history)
and a provider error (downProvider) are both absent. -/
theorem get_stock_price_contract_witness :
    get_stock_price histProvider "aapl" = some (round2 160) ∧
    get_stock_price histProvider "MSFT" = none ∧
    get_stock_price downProvider "aapl" = none :=
  ⟨(get_stock_price_contract histProvider "aapl").2.2.2.1 [150, 160] 160 rfl rfl,
   (get_stock_price_contract histProvider "MSFT").2.1 rfl,
   (get_stock_price_contract downProvider "aapl").2.2.1 () rfl⟩

/-! ## Properties of `get_portfolio_summary` -/

/-- The holdings of a list whose quote lookup succeeds. -/
def pricedFilter (provider : Provider) (l : List StockHolding) : List StockHolding :=
  l.filter (fun h => (get_stock_price provider h.ticker).isSome)

/-- Helper: on holdings with assigned ids, `priceViews` succeeds and its views are
in one-to-one correspondence with the quote-resolved holdings. -/
lemma priceViews_spec (provider : Provider) (l : List StockHolding)
    (hids : ∀ h ∈ l, h.id ≠ none) :
    ∃ vs, priceViews provider l = .ok vs ∧
      vs.map (fun v => v.current_value) =
        (pricedFilter provider l).map
          (fun h => h.shares * ((get_stock_price provider h.ticker).getD 0)) ∧
      vs.map (fun v => v.shares * v.purchase_price) =
        (pricedFilter provider l).map (fun h => h.shares * h.purchase_price) ∧
      vs.length = (pricedFilter provider l).length := by
  induction l with
  | nil => exact ⟨[], rfl, rfl, rfl, rfl⟩
  | cons h rest ih =>
    obtain ⟨vs, hok, hcv, hpv, hlen⟩ :=
      ih (fun g hg => hids g (List.mem_cons_of_mem h hg))
    cases hq : get_stock_price provider h.ticker with
    | none =>
      refine ⟨vs, ?_, ?_, ?_, ?_⟩
      · simp [priceViews, hq, hok]
      · simpa [pricedFilter, hq] using hcv
      · simpa [pricedFilter, hq] using hpv
      · simpa [pricedFilter, hq] using hlen
    | some p =>
      obtain ⟨i, hi⟩ := Option.ne_none_iff_exists'.mp (hids h (List.mem_cons_self h rest))
      refine ⟨{ id := i
                ticker := h.ticker
                shares := h.shares
                purchase_price := h.purchase_price
                current_price := p
                current_value := h.shares * p
                gain_loss := h.shares * p - h.shares * h.purchase_price
                gain_loss_percent :=
                  if h.shares * h.purchase_price > 0 then
                    (h.shares * p - h.shares * h.purchase_price) /
                      (h.shares * h.purchase_price) * 100
                  else 0
                created_at := h.created_at
                updated_at := h.updated_at } :: vs, ?_, ?_, ?_, ?_⟩
      · simp only [priceViews, hq, from_holding_some h p i hi, hok]
        rfl
      · simpa [pricedFilter, hq] using hcv
      · simpa [pricedFilter, hq] using hpv
      · simpa [pricedFilter, hq] using hlen

/-- The statement of C2 at given provider, store and user: the summary succeeds
and every field aggregates exactly the quote-resolved holdings of the user. -/
def SummarySpec (provider : Provider) (db : Database) (user_id : Nat) : Prop :=
  ∃ s, get_portfolio_summary provider db user_id = .ok s ∧
    s.total_current_value =
      ((pricedFilter provider (get_user_holdings db user_id)).map
        (fun h => h.shares * ((get_stock_price provider h.ticker).getD 0))).sum ∧
    s.total_purchase_value =
      ((pricedFilter provider (get_user_holdings db user_id)).map
        (fun h => h.shares * h.purchase_price)).sum ∧
    s.total_gain_loss = s.total_current_value - s.total_purchase_value ∧
    (s.total_purchase_value ≠ 0 →
      s.total_gain_loss_percent = s.total_gain_loss / s.total_purchase_value * 100) ∧
    (s.total_purchase_value = 0 → s.total_gain_loss_percent = 0) ∧
    s.holdings_count = (pricedFilter provider (get_user_holdings db user_id)).length ∧
    (get_user_holdings db user_id = [] →
      s = { total_current_value := 0
            total_purchase_value := 0
            total_gain_loss := 0
            total_gain_loss_percent := 0
            holdings_count := 0 })

/-- C2: for every user whose stored holdings have assigned ids and the schema's
non-negative shares and prices, `get_portfolio_summary` sums current and purchase
values over exactly the quote-resolved holdings (unpriced ones are silently
excluded), derives their difference and the 0-guarded percentage, counts only the
priced holdings, and returns all-zero fields for a user with no holdings. -/
theorem get_portfolio_summary_spec (provider : Provider) (db : Database) (user_id : Nat)
    (hids : ∀ h ∈ get_user_holdings db user_id, h.id ≠ none)
    (hnn : ∀ h ∈ get_user_holdings db user_id, 0 ≤ h.shares ∧ 0 ≤ h.purchase_price) :
    SummarySpec provider db user_id := by
  obtain ⟨vs, hok, hcv, hpv, hlen⟩ := priceViews_spec provider _ hids
  have hsum : get_portfolio_summary provider db user_id =
      .ok { total_current_value := (vs.map (fun v => v.current_value)).sum
            total_purchase_value := (vs.map (fun v => v.shares * v.purchase_price)).sum
            total_gain_loss := (vs.map (fun v => v.current_value)).sum -
              (vs.map (fun v => v.shares * v.purchase_price)).sum
            total_gain_loss_percent :=
              if (vs.map (fun v => v.shares * v.purchase_price)).sum > 0 then
                ((vs.map (fun v => v.current_value)).sum -
                    (vs.map (fun v => v.shares * v.purchase_price)).sum) /
                  (vs.map (fun v => v.shares * v.purchase_price)).sum * 100
              else 0
            holdings_count := vs.length } := by
    simp only [get_portfolio_summary, get_holdings_with_prices, hok]
    rfl
  have htpv_nonneg : 0 ≤ (vs.map (fun v => v.shares * v.purchase_price)).sum := by
    rw [hpv]
    apply List.sum_nonneg
    intro x hx
    obtain ⟨h, hh, rfl⟩ := List.mem_map.mp hx
    have hh' : h ∈ List.filter (fun h => (get_stock_price provider h.ticker).isSome)
        (get_user_holdings db user_id) := hh
    have hmem : h ∈ get_user_holdings db user_id := List.mem_of_mem_filter hh'
    exact mul_nonneg (hnn h hmem).1 (hnn h hmem).2
  refine ⟨_, hsum, congrArg List.sum hcv, congrArg List.sum hpv, rfl, ?_, ?_, hlen, ?_⟩
  · intro hne
    dsimp only at hne ⊢
    have hpos : 0 < (vs.map (fun v => v.shares * v.purchase_price)).sum :=
      lt_of_le_of_ne htpv_nonneg (Ne.symm hne)
    rw [if_pos hpos]
  · intro hzero
    dsimp only at hzero ⊢
    rw [hzero]
    simp
  · intro hempty
    rw [hempty] at hok
    have hvs : vs = [] := by
      have : (Except.ok [] : Except String (List HoldingWithCurrentPrice)) = .ok vs := hok
      simpa using this.symm
    subst hvs
    simp

/-- Witness for C2 on a store with a priced user: the summary spec holds for
user 1 in `dbTwo` under `flatProvider`. -/
theorem get_portfolio_summary_spec_witness : SummarySpec flatProvider dbTwo 1 :=
  get_portfolio_summary_spec flatProvider dbTwo 1 (by decide) (by decide)

end StockTracker
